import Mathlib

/-!
Verification of the core replication engine of the Mirror-rust repository.

Definitions are shallow embeddings of the Rust source under `src/`.  Code that
the repository uses but whose definition is not under `src/` (the byte cursor
`NetworkWriter`/`NetworkReader`, the `NetworkBehaviourTrait` default methods,
the snapshot-interpolation module, the batcher) is modelled from the
specification; every such definition carries a doc comment starting with
`Modelled from the spec:` naming what is missing.

Machine integers are embedded as `Nat` with explicit `% 2 ^ w` at the points
where the Rust code casts or may wrap; `f64` clock values, which are only ever
stored and compared here, are embedded as `Rat`.
-/

set_option maxHeartbeats 1000000

namespace Mirror

/-- Modelled from the spec: little-endian byte decomposition used by the byte
cursor's fixed-width append operations (`NetworkWriter::write_blittable`,
absent from `src/`; spec section 4.1: integers are appended with a fixed
little-endian width). `le_bytes w x` is the list of the `w` low bytes of `x`,
least significant first. -/
def le_bytes : Nat → Nat → List Nat
  | 0, _ => []
  | w + 1, x => x % 256 :: le_bytes w (x / 256)

/-- `NetworkWriterTrait::write_byte` (src/src/core/network_writer_extensions.rs):
appends one blittable `u8`; the `% 2 ^ 8` is the `u8` cast at the call sites. -/
def write_byte (v : Nat) : List Nat := le_bytes 1 (v % 2 ^ 8)

/-- `NetworkWriterTrait::write_ushort`: appends a blittable `u16`, little endian. -/
def write_ushort (v : Nat) : List Nat := le_bytes 2 (v % 2 ^ 16)

/-- `NetworkWriterTrait::write_uint`: appends a blittable `u32`, little endian. -/
def write_uint (v : Nat) : List Nat := le_bytes 4 (v % 2 ^ 32)

/-- `NetworkWriterTrait::write_ulong`: appends a blittable `u64`, little endian. -/
def write_ulong (v : Nat) : List Nat := le_bytes 8 (v % 2 ^ 64)

/-- `NetworkWriterTrait::compress_var_uint`
(src/src/core/network_writer_extensions.rs, lines 170-232), translated
branch for branch.  Shifts and casts follow the Rust `u16`/`u32`/`u64`
semantics: `x as uN` is `x % 2 ^ N`, `<<` keeps the width of its left operand,
`value - 240` never underflows because the branch guards give `value > 240`. -/
def compress_var_uint (value : Nat) : List Nat :=
  if value ≤ 240 then
    write_byte value
  else if value ≤ 2287 then
    let a := ((value - 240) >>> 8) % 2 ^ 16 + 241
    let b := (value - 240) % 2 ^ 16
    write_ushort ((b <<< 8) % 2 ^ 16 ||| a)
  else if value ≤ 67823 then
    let b := ((value - 2288) >>> 8) % 2 ^ 16
    let c := (value - 2288) % 2 ^ 16
    write_byte 249 ++ write_ushort ((c <<< 8) % 2 ^ 16 ||| b)
  else if value ≤ 16777215 then
    write_uint ((value <<< 8) % 2 ^ 32 ||| 250)
  else if value ≤ 4294967295 then
    write_byte 251 ++ write_uint (value % 2 ^ 32)
  else if value ≤ 1099511627775 then
    let b := (value &&& 0xFF) % 2 ^ 16
    let c := (value >>> 8) % 2 ^ 32
    write_ushort ((b <<< 8) % 2 ^ 16 ||| 252) ++ write_uint c
  else if value ≤ 281474976710655 then
    let b := (value &&& 0xFF) % 2 ^ 16
    let c := ((value >>> 8) &&& 0xFF) % 2 ^ 16
    write_byte 253 ++ write_ushort ((c <<< 8) % 2 ^ 16 ||| b) ++
      write_uint ((value >>> 16) % 2 ^ 32)
  else if value ≤ 72057594037927935 then
    write_ulong ((value <<< 8) % 2 ^ 64 ||| 254)
  else
    write_byte 255 ++ write_ulong value

/-- Modelled from the spec: `decompress_var_ulong` of the byte cursor
(`network_reader_extensions`, absent from `src/`).  Reads the marker byte and
reconstructs the value from the following little-endian bytes per the varint
tier table of spec section 6 (tier markers 241-254 disambiguate the length,
255 marks the 1+8-byte tier).  Returns the decoded value together with the
unconsumed bytes, `none` when the buffer is exhausted. -/
def decompress_var_ulong : List Nat → Option (Nat × List Nat)
  | [] => none
  | a0 :: r =>
    if a0 ≤ 240 then some (a0, r)
    else if a0 ≤ 248 then
      match r with
      | b1 :: r1 => some (240 + 256 * (a0 - 241) + b1, r1)
      | [] => none
    else if a0 = 249 then
      match r with
      | b1 :: b2 :: r1 => some (2288 + 256 * b1 + b2, r1)
      | _ => none
    else if a0 = 250 then
      match r with
      | b1 :: b2 :: b3 :: r1 => some (b1 + 2 ^ 8 * b2 + 2 ^ 16 * b3, r1)
      | _ => none
    else if a0 = 251 then
      match r with
      | b1 :: b2 :: b3 :: b4 :: r1 =>
        some (b1 + 2 ^ 8 * b2 + 2 ^ 16 * b3 + 2 ^ 24 * b4, r1)
      | _ => none
    else if a0 = 252 then
      match r with
      | b1 :: b2 :: b3 :: b4 :: b5 :: r1 =>
        some (b1 + 2 ^ 8 * b2 + 2 ^ 16 * b3 + 2 ^ 24 * b4 + 2 ^ 32 * b5, r1)
      | _ => none
    else if a0 = 253 then
      match r with
      | b1 :: b2 :: b3 :: b4 :: b5 :: b6 :: r1 =>
        some (b1 + 2 ^ 8 * b2 + 2 ^ 16 * b3 + 2 ^ 24 * b4 + 2 ^ 32 * b5 +
          2 ^ 40 * b6, r1)
      | _ => none
    else if a0 = 254 then
      match r with
      | b1 :: b2 :: b3 :: b4 :: b5 :: b6 :: b7 :: r1 =>
        some (b1 + 2 ^ 8 * b2 + 2 ^ 16 * b3 + 2 ^ 24 * b4 + 2 ^ 32 * b5 +
          2 ^ 40 * b6 + 2 ^ 48 * b7, r1)
      | _ => none
    else
      match r with
      | b1 :: b2 :: b3 :: b4 :: b5 :: b6 :: b7 :: b8 :: r1 =>
        some (b1 + 2 ^ 8 * b2 + 2 ^ 16 * b3 + 2 ^ 24 * b4 + 2 ^ 32 * b5 +
          2 ^ 40 * b6 + 2 ^ 48 * b7 + 2 ^ 56 * b8, r1)
      | _ => none

/-- Spec-side definition (the varint tier table of spec section 6), for
comparison with the encoder embedded from the source: the byte length of the
minimal sufficient tier for a value. -/
def var_uint_tier_len (v : Nat) : Nat :=
  if v ≤ 240 then 1
  else if v ≤ 2287 then 2
  else if v ≤ 67823 then 3
  else if v ≤ 16777215 then 4
  else if v ≤ 4294967295 then 5
  else if v ≤ 1099511627775 then 6
  else if v ≤ 281474976710655 then 7
  else if v ≤ 72057594037927935 then 8
  else 9

/-- Modelled from the spec: `NetworkWriter::write_bytes` (absent from `src/`):
appends `count` bytes of `value` starting at `offset`. -/
def write_bytes (value : List Nat) (offset count : Nat) : List Nat :=
  (value.drop offset).take count

/-- `NetworkWriterTrait::write_bytes_and_size`
(src/src/core/network_writer_extensions.rs, lines 103-110): an empty slice
writes a blittable `0u16` (two zero bytes); otherwise a fixed 4-byte `u32`
prefix holding `1 + count` followed by the bytes themselves. -/
def write_bytes_and_size (value : List Nat) (offset count : Nat) : List Nat :=
  if value.length = 0 then
    write_ushort 0
  else
    write_uint (1 + count % 2 ^ 32) ++ write_bytes value offset count

/-- `CommandMessage` (src/src/mirror/core/messages.rs, lines 159-216). -/
structure CommandMessage where
  net_id : Nat
  component_index : Nat
  function_hash : Nat
  payload : List Nat
deriving DecidableEq, Inhabited

/-- `CommandMessage::serialize` (messages.rs, lines 207-215): the 2-byte
stable-hash message id (the source comment records
`"Mirror.CommandMessage".get_stable_hash_code16()` as 39124; the hash
function itself is absent from `src/`), the header fields, then the payload
prefixed by the fixed 4-byte `u32` value `1 + len`. -/
def CommandMessage.serialize (m : CommandMessage) : List Nat :=
  write_ushort 39124 ++ write_uint m.net_id ++ write_byte m.component_index ++
    write_ushort m.function_hash ++ write_uint (1 + m.payload.length % 2 ^ 32) ++
    m.payload

/-- `SyncDirection` of a component (network_behaviour.rs, absent from `src/`;
the two variants are the ones matched on throughout the components under
`src/`). -/
inductive SyncDirection
  | ServerToClient
  | ClientToServer
deriving DecidableEq, Inhabited

/-- `SyncMode` of a component (network_behaviour.rs, absent from `src/`):
whether the component's state goes to all observers or only to the owner. -/
inductive SyncMode
  | Observers
  | Owner
deriving DecidableEq, Inhabited

/-- State of one replicated component: the content of one slot of the global
`NETWORK_BEHAVIOURS` map (network_behaviour.rs is absent from `src/`; the
fields are exactly the observations the code under `src/` makes of a
component).  `sync_var_dirty_bits` is the component's `u64` dirty mask;
`payload` abstracts the bytes `NetworkBehaviourTrait::serialize` writes for
it; `deserialize_ok` abstracts the outcome of
`NetworkBehaviourTrait::deserialize`. -/
structure NetworkBehaviourState where
  sync_var_dirty_bits : Nat
  sync_direction : SyncDirection
  sync_mode : SyncMode
  payload : List Nat
  deserialize_ok : Bool
deriving DecidableEq, Inhabited

/-- Modelled from the spec: `NetworkBehaviourTrait::is_dirty` (absent from
`src/`): a component is dirty when some of its dirty bits are set (spec
glossary: "Dirty bit: per-field/per-component flag indicating state has
changed since last flush"). -/
def NetworkBehaviourState.is_dirty (c : NetworkBehaviourState) : Bool :=
  c.sync_var_dirty_bits != 0

/-- Modelled from the spec: `NetworkBehaviourTrait::clear_all_dirty_bits`
(absent from `src/`): clears every dirty bit of the component (spec section
4.3: "each component's dirty bits are cleared"). -/
def NetworkBehaviourState.clear_all_dirty_bits (c : NetworkBehaviourState) :
    NetworkBehaviourState :=
  { c with sync_var_dirty_bits := 0 }

/-- Modelled from the spec: `NetworkBehaviourTrait::set_dirty` (absent from
`src/`): marks the component dirty by setting all of its `u64` dirty bits. -/
def NetworkBehaviourState.set_dirty (c : NetworkBehaviourState) :
    NetworkBehaviourState :=
  { c with sync_var_dirty_bits := 2 ^ 64 - 1 }

/-- `NetworkIdentity::is_dirty(mask, index)`
(src/src/mirror/core/network_identity.rs, lines 366-368): tests bit `index`
of a `u64` mask.  The Rust `1 << index` on a `u64` masks the shift amount, so
the embedded shift amount is `index % 64`. -/
def NetworkIdentity.is_dirty (mask : Nat) (index : Nat) : Bool :=
  (mask &&& (1 <<< (index % 64))) != 0

/-- `NetworkIdentity::server_dirty_masks` (network_identity.rs, lines
335-365), the loop body for the slots from index `i` on: the source's `|=`
accumulation is expressed by or-ing this slot's contributed bit with the bits
of the remaining slots; the source's nested `if` for the observers mask is
flattened into one conjunction.  `1 << i` on a `u64` masks the shift amount
(`i % 64`). -/
def server_dirty_masks_go (initial_state : Bool) :
    Nat → List NetworkBehaviourState → Nat × Nat
  | _, [] => (0, 0)
  | i, c :: rest =>
    let nth_bit : Nat := 1 <<< (i % 64)
    let dirty := c.is_dirty
    let owner_bit : Nat :=
      if initial_state ||
          (c.sync_direction == SyncDirection.ServerToClient && dirty) then nth_bit
      else 0
    let observers_bit : Nat :=
      if c.sync_mode == SyncMode.Observers && (initial_state || dirty) then nth_bit
      else 0
    let (owner_mask, observers_mask) := server_dirty_masks_go initial_state (i + 1) rest
    (owner_bit ||| owner_mask, observers_bit ||| observers_mask)

/-- `NetworkIdentity::server_dirty_masks`: the `(owner_mask, observers_mask)`
pair for the identity's component list. -/
def server_dirty_masks (initial_state : Bool) (comps : List NetworkBehaviourState) :
    Nat × Nat :=
  server_dirty_masks_go initial_state 0 comps

/-- The per-slot loop of `NetworkIdentity::serialize_server`
(network_identity.rs, lines 386-418), from slot `i` on: a component selected
by either mask has its serialized payload appended to each selected stream
(serialized once, `segment`), and, when `initial_state` is false, its dirty
bits cleared; an unselected component is left untouched and contributes no
bytes. -/
def serialize_server_go (initial_state : Bool) (owner_mask observers_mask : Nat) :
    Nat → List NetworkBehaviourState → List Nat × List Nat × List NetworkBehaviourState
  | _, [] => ([], [], [])
  | i, c :: rest =>
    let owner_dirty := NetworkIdentity.is_dirty owner_mask i
    let observers_dirty := NetworkIdentity.is_dirty observers_mask i
    let segment := c.payload
    let c' :=
      if (owner_dirty || observers_dirty) && !initial_state then c.clear_all_dirty_bits
      else c
    let (owner_rest, observers_rest, comps_rest) :=
      serialize_server_go initial_state owner_mask observers_mask (i + 1) rest
    ((if owner_dirty then segment else []) ++ owner_rest,
     (if observers_dirty then segment else []) ++ observers_rest,
     c' :: comps_rest)

/-- `NetworkIdentity::serialize_server` (network_identity.rs, lines 369-420):
computes the masks, writes each non-zero mask as a varint
(`compress_var_ulong` uses the same tier scheme as `compress_var_uint`), and
when the combined mask is non-zero runs the per-slot loop.  Returns the owner
stream, the observers stream and the updated components.  The
`validate_components` call at line 375 only logs (see `validate_components`)
and has no effect on the data. -/
def serialize_server (initial_state : Bool) (comps : List NetworkBehaviourState) :
    List Nat × List Nat × List NetworkBehaviourState :=
  let (owner_mask, observers_mask) := server_dirty_masks initial_state comps
  let owner_header := if owner_mask ≠ 0 then compress_var_uint owner_mask else []
  let observers_header := if observers_mask ≠ 0 then compress_var_uint observers_mask else []
  if (owner_mask ||| observers_mask) ≠ 0 then
    let (owner_body, observers_body, comps') :=
      serialize_server_go initial_state owner_mask observers_mask 0 comps
    (owner_header ++ owner_body, observers_header ++ observers_body, comps')
  else
    (owner_header, observers_header, comps)

/-- The per-slot loop of `NetworkIdentity::deserialize_server`
(network_identity.rs, lines 426-445), from slot `i` on.  `mask` is the varint
mask decoded from the reader (`reader.decompress_var_ulong()`, line 424; see
`decompress_var_ulong`); the reader is not threaded further because
per-component payload parsing (`NetworkBehaviourTrait::deserialize`, absent
from `src/`) is abstracted by `deserialize_ok`.  For a set bit: a component
whose direction is `ServerToClient` is deserialized (failure aborts
immediately with `false`, leaving the remaining components untouched) and
marked dirty; a component with any other direction is skipped silently. -/
def deserialize_server_go (mask : Nat) :
    Nat → List NetworkBehaviourState → Bool × List NetworkBehaviourState
  | _, [] => (true, [])
  | i, c :: rest =>
    if NetworkIdentity.is_dirty mask i then
      if c.sync_direction == SyncDirection.ServerToClient then
        if !c.deserialize_ok then
          (false, c :: rest)
        else
          let c' := c.set_dirty
          let (ok, rest') := deserialize_server_go mask (i + 1) rest
          (ok, c' :: rest')
      else
        let (ok, rest') := deserialize_server_go mask (i + 1) rest
        (ok, c :: rest')
    else
      let (ok, rest') := deserialize_server_go mask (i + 1) rest
      (ok, c :: rest')

/-- `NetworkIdentity::deserialize_server` (network_identity.rs, lines
421-447): returns whether deserialization succeeded together with the updated
components. -/
def deserialize_server (comps : List NetworkBehaviourState) (mask : Nat) :
    Bool × List NetworkBehaviourState :=
  deserialize_server_go mask 0 comps

/-- `NetworkIdentity::validate_components` (network_identity.rs, lines
300-304): its only effect is an error log when the component count exceeds
64; it returns normally in every case.  The produced log entries are the
return value. -/
def validate_components (network_behaviours_count : Nat) : List String :=
  if network_behaviours_count > 64 then
    ["NetworkIdentity has too many components. Max is 64."]
  else []

/-- The `NetworkIdentity` fields involved in spawning (network_identity.rs,
lines 59-79): the identity's components (the `NETWORK_BEHAVIOURS` slots keyed
`"{net_id}_{i}"`) are carried as a list; fields never read by the embedded
operations (observers, connection, visibility, serialization cache, ...) are
omitted.  `network_behaviours_count` is a `u8` in the source. -/
structure NetworkIdentity where
  net_id : Nat
  scene_id : Nat
  asset_id : Nat
  has_spawned : Bool
  spawned_from_instantiate : Bool
  network_behaviours_count : Nat
  behaviours : List NetworkBehaviourState
deriving DecidableEq, Inhabited

/-- `NetworkIdentity::initialize_network_behaviours` (network_identity.rs,
lines 234-276): for each backend component descriptor the factory may or may
not create a behaviour (`BackendDataStatic` and `NetworkBehaviourFactory` are
absent from `src/`, so the creation outcomes are passed in as
`Option NetworkBehaviourState` lists, consulted only when the respective
`asset_id`/`scene_id` is non-zero); every created behaviour is registered and
the `u8` count incremented; finally `validate_components` runs.  Returns the
updated identity and the error log. -/
def initialize_network_behaviours (id : NetworkIdentity)
    (asset_components scene_components : List (Option NetworkBehaviourState)) :
    NetworkIdentity × List String :=
  let created_a := if id.asset_id ≠ 0 then asset_components.filterMap (fun c => c) else []
  let created_s := if id.scene_id ≠ 0 then scene_components.filterMap (fun c => c) else []
  let id' := { id with
    behaviours := id.behaviours ++ created_a ++ created_s,
    network_behaviours_count :=
      (id.network_behaviours_count + (created_a ++ created_s).length) % 256 }
  (id', validate_components id'.network_behaviours_count)

/-- `NetworkIdentity::awake` (network_identity.rs, lines 277-284):
initializes the behaviours, logs when the identity had already spawned (also
setting `spawned_from_instantiate`), and marks it spawned. -/
def NetworkIdentity.awake (id : NetworkIdentity)
    (asset_components scene_components : List (Option NetworkBehaviourState)) :
    NetworkIdentity × List String :=
  let (id1, logs) := initialize_network_behaviours id asset_components scene_components
  let logs2 := if id1.has_spawned then logs ++ ["NetworkIdentity has already spawned."] else logs
  let id2 := { id1 with
    spawned_from_instantiate := if id1.has_spawned then true else id1.spawned_from_instantiate,
    has_spawned := true }
  (id2, logs2)

/-- Modelled from the spec: a timestamped snapshot (`TimeSnapshot`, absent
from `src/`; spec section 3: a snapshot carries `remote_time` and
`local_time`, ordered and keyed by `remote_time`).  The engine-side transform
data is irrelevant to the embedded operations and omitted. -/
structure TimeSnapshot where
  remote_time : Rat
  local_time : Rat
deriving DecidableEq, Inhabited

/-- Modelled from the spec: one exponential moving average
(`ExponentialMovingAverage` in network_time.rs, absent from `src/`; spec
section 3 lists the two EMAs kept per connection). -/
structure ExponentialMovingAverage where
  n : Nat
  value : Rat
  standard_deviation : Rat
deriving DecidableEq, Inhabited

/-- Modelled from the spec: `ExponentialMovingAverage::new(n)` (absent from
`src/`): an EMA over a window of `n` samples with zeroed statistics. -/
def ExponentialMovingAverage.new (n : Nat) : ExponentialMovingAverage :=
  { n := n, value := 0, standard_deviation := 0 }

/-- Modelled from the spec: the buffer effect of
`SnapshotInterpolation::insert_and_adjust` (absent from `src/`; spec section
4.5: "insert-if-absent by `remote_time`").  The `BTreeMap` keyed by
`remote_time` is carried as a key-sorted association list; an already present
key leaves the buffer unchanged. -/
def snapshots_insert_if_absent :
    List (Rat × TimeSnapshot) → Rat → TimeSnapshot → List (Rat × TimeSnapshot)
  | [], k, s => [(k, s)]
  | (k0, s0) :: rest, k, s =>
    if k < k0 then (k, s) :: (k0, s0) :: rest
    else if k = k0 then (k0, s0) :: rest
    else (k0, s0) :: snapshots_insert_if_absent rest k s

/-- `NetworkConnectionToClient` (network_connection_to_client.rs, lines
13-28): the fields read or written by the embedded operations.  `f64` clock
fields are `Rat`; the inner `NetworkConnection`'s `owned` list of `u32`
object ids is inlined; the batchers, address and rtt state are omitted (never
read by these operations).  `snapshot_buffer_size_limit` is an `i32` in the
source, cast to `usize` where used. -/
structure NetworkConnectionToClient where
  drift_ema : ExponentialMovingAverage
  delivery_time_ema : ExponentialMovingAverage
  remote_timeline : Rat
  remote_timescale : Rat
  buffer_time_multiplier : Rat
  buffer_time : Rat
  snapshots : List (Rat × TimeSnapshot)
  snapshot_buffer_size_limit : Nat
  owned : List Nat
deriving DecidableEq, Inhabited

/-- `NetworkConnectionToClient::new` (network_connection_to_client.rs, lines
30-53).  `ts` is the `NetworkTime::local_time()` read at entry (line 31) and
`send_interval` is `NetworkServerStatic::get_static_send_interval()`; the
transport address lookup is omitted.  Line 41 initializes `remote_timescale`
to `ts`, the same value as `remote_timeline`; `buffer_time` is set after
construction from the send interval and the multiplier (line 48). -/
def NetworkConnectionToClient.new (ts send_interval : Rat) : NetworkConnectionToClient :=
  let conn : NetworkConnectionToClient := {
    drift_ema := ExponentialMovingAverage.new 60
    delivery_time_ema := ExponentialMovingAverage.new 10
    remote_timeline := ts
    remote_timescale := ts
    buffer_time_multiplier := 2
    buffer_time := 0
    snapshots := []
    snapshot_buffer_size_limit := 64
    owned := [] }
  { conn with buffer_time := send_interval * conn.buffer_time_multiplier }

/-- `NetworkConnectionToClient::on_time_snapshot`
(network_connection_to_client.rs, lines 135-166): returns unchanged when the
buffer is at (or beyond) `snapshot_buffer_size_limit` (lines 136-138);
otherwise hands the snapshot to `SnapshotInterpolation::insert_and_adjust`
(absent from `src/`), whose effect on the buffer is the insert-if-absent of
`snapshots_insert_if_absent`; its remaining effects (and the optional
`dynamic_adjustment`) only adjust the clock fields, never the buffer, and are
not modelled. -/
def on_time_snapshot (conn : NetworkConnectionToClient) (snapshot : TimeSnapshot) :
    NetworkConnectionToClient :=
  if conn.snapshots.length ≥ conn.snapshot_buffer_size_limit then conn
  else { conn with
    snapshots := snapshots_insert_if_absent conn.snapshots snapshot.remote_time snapshot }

/-- `NetworkConnectionToClient::add_owned_object`
(network_connection_to_client.rs, lines 202-204). -/
def add_owned_object (conn : NetworkConnectionToClient) (net_id : Nat) :
    NetworkConnectionToClient :=
  { conn with owned := conn.owned ++ [net_id] }

/-- `NetworkConnectionToClient::remove_owned_object`
(network_connection_to_client.rs, lines 205-207):
`self.owned().retain(|x| net_id != net_id)` - the retain predicate compares
the `net_id` argument with itself and never mentions the element `x`. -/
def remove_owned_object (conn : NetworkConnectionToClient) (net_id : Nat) :
    NetworkConnectionToClient :=
  { conn with owned := conn.owned.filter (fun x => net_id != net_id) }

/-- `TransportChannel` (transport.rs, absent from `src/`; the two channels
matched on by `NetworkConnection::send`). -/
inductive TransportChannel
  | Reliable
  | Unreliable
deriving DecidableEq, Inhabited

/-- Modelled from the spec: the batcher (batching/batcher.rs, absent from
`src/`; spec section 4.2): `add_message` appends the message, prefixed by its
own varint length, to the pending frame; if appending would push the frame
past the byte threshold, the pending frame is finalized (emitted) first and a
new frame, stamped with the timestamp, is started.  A frame is
`(timestamp, body)`. -/
structure Batcher where
  threshold : Nat
  pending : Option (Rat × List Nat)
  full : List (Rat × List Nat)
deriving DecidableEq, Inhabited

/-- Modelled from the spec: a fresh batcher for a channel threshold. -/
def Batcher.new (threshold : Nat) : Batcher :=
  { threshold := threshold, pending := none, full := [] }

/-- Modelled from the spec: `Batcher::add_message` (absent from `src/`), per
spec section 4.2. -/
def Batcher.add_message (b : Batcher) (msg : List Nat) (timestamp : Rat) : Batcher :=
  let entry := compress_var_uint msg.length ++ msg
  match b.pending with
  | none => { b with pending := some (timestamp, entry) }
  | some (t0, body) =>
    if body.length + entry.length > b.threshold then
      { b with full := b.full ++ [(t0, body)], pending := some (timestamp, entry) }
    else
      { b with pending := some (t0, body ++ entry) }

/-- `NetworkConnection` (src/src/mirror/core/network_connection.rs, lines
10-24): the struct's fields; `authentication_data` (a trait object) is
omitted. -/
structure NetworkConnection where
  id : Nat
  reliable_batcher : Batcher
  unreliable_batcher : Batcher
  is_ready : Bool
  last_message_time : Rat
  is_authenticated : Bool
  net_id : Nat
  owned : List Nat
  remote_time_stamp : Rat
  last_ping_time : Rat
  first_conn_loc_time_stamp : Rat
deriving DecidableEq, Inhabited

/-- `NetworkConnection::send` (network_connection.rs, lines 200-211): adds
the segment to the batcher of the channel, stamped with the current local
time (passed as `t`). -/
def NetworkConnection.send (conn : NetworkConnection) (segment : List Nat)
    (channel : TransportChannel) (t : Rat) : NetworkConnection :=
  match channel with
  | TransportChannel.Reliable =>
    { conn with reliable_batcher := conn.reliable_batcher.add_message segment t }
  | TransportChannel.Unreliable =>
    { conn with unreliable_batcher := conn.unreliable_batcher.add_message segment t }

/-- `NetworkConnectionTrait::send_network_message` (network_connection.rs,
lines 46-59): serializes the message into a fresh pooled writer
(`message_bytes` is the output of `NetworkMessageTrait::serialize`, so the
writer position equals its length), compares it against
`NetworkMessages::max_message_size(channel)` (passed as `max`, transport
dependent), logs an error and returns without sending when the message is too
large, and otherwise hands the bytes to `send`. -/
def send_network_message (conn : NetworkConnection) (message_bytes : List Nat)
    (channel : TransportChannel) (max : Nat) (t : Rat) : NetworkConnection :=
  if message_bytes.length > max then conn
  else conn.send message_bytes channel t

/-! ## Theorems -/

theorem le_bytes_one (x : Nat) : le_bytes 1 x = [x % 256] := rfl

theorem le_bytes_two (x : Nat) : le_bytes 2 x = [x % 256, x / 256 % 256] := rfl

theorem le_bytes_three (x : Nat) :
    le_bytes 3 x = [x % 256, x / 256 % 256, x / 256 / 256 % 256] := rfl

theorem le_bytes_four (x : Nat) :
    le_bytes 4 x
      = [x % 256, x / 256 % 256, x / 256 / 256 % 256, x / 256 / 256 / 256 % 256] := rfl

theorem le_bytes_seven (x : Nat) :
    le_bytes 7 x
      = [x % 256, x / 256 % 256, x / 256 / 256 % 256, x / 256 / 256 / 256 % 256,
         x / 256 / 256 / 256 / 256 % 256, x / 256 / 256 / 256 / 256 / 256 % 256,
         x / 256 / 256 / 256 / 256 / 256 / 256 % 256] := rfl

theorem le_bytes_eight (x : Nat) :
    le_bytes 8 x
      = [x % 256, x / 256 % 256, x / 256 / 256 % 256, x / 256 / 256 / 256 % 256,
         x / 256 / 256 / 256 / 256 % 256, x / 256 / 256 / 256 / 256 / 256 % 256,
         x / 256 / 256 / 256 / 256 / 256 / 256 % 256,
         x / 256 / 256 / 256 / 256 / 256 / 256 / 256 % 256] := rfl

theorem le_bytes_length (w x : Nat) : (le_bytes w x).length = w := by
  induction w generalizing x with
  | zero => rfl
  | succ n ih => simp [le_bytes, ih]

theorem le_bytes_mul_add (w v c : Nat) (hc : c < 256) :
    le_bytes (w + 1) (2 ^ 8 * v + c) = c :: le_bytes w v := by
  simp only [le_bytes]
  congr 1
  · omega
  · congr 1
    omega

theorem compress_tier1_eq (v : Nat) (h : v ≤ 240) : compress_var_uint v = [v] := by
  rw [compress_var_uint, if_pos h]
  simp only [write_byte, le_bytes_one]
  congr 1
  omega

theorem compress_tier2_eq (v : Nat) (h1 : 240 < v) (h2 : v ≤ 2287) :
    compress_var_uint v = [(v - 240) / 256 + 241, (v - 240) % 256] := by
  rw [compress_var_uint, if_neg (by omega), if_pos h2]
  simp only [write_ushort]
  have e1 : (((v - 240) % 2 ^ 16) <<< 8) % 2 ^ 16 = 2 ^ 8 * ((v - 240) % 2 ^ 8) := by
    rw [Nat.shiftLeft_eq]
    have m1 : (v - 240) % 2 ^ 16 = v - 240 := by omega
    rw [m1]
    omega
  have e2 : ((v - 240) >>> 8) % 2 ^ 16 + 241 = (v - 240) / 2 ^ 8 + 241 := by
    rw [Nat.shiftRight_eq_div_pow]
    omega
  rw [e1, e2, ← Nat.mul_add_lt_is_or (by omega)]
  have hX : (2 ^ 8 * ((v - 240) % 2 ^ 8) + ((v - 240) / 2 ^ 8 + 241)) % 2 ^ 16
      = 2 ^ 8 * ((v - 240) % 2 ^ 8) + ((v - 240) / 2 ^ 8 + 241) := by omega
  rw [hX, le_bytes_two]
  obtain ⟨q, r, hqr, hqb, hrb⟩ : ∃ q r, v - 240 = 256 * q + r ∧ q < 8 ∧ r < 256 :=
    ⟨(v - 240) / 256, (v - 240) % 256, by omega, by omega, by omega⟩
  have r1 : (v - 240) % 2 ^ 8 = r := by omega
  have r2 : (v - 240) / 2 ^ 8 = q := by omega
  have r3 : (v - 240) / 256 = q := by omega
  have r4 : (v - 240) % 256 = r := by omega
  rw [r1, r2, r3, r4]
  simp only [List.cons.injEq, and_true]
  constructor <;> omega

theorem compress_tier3_eq (v : Nat) (h1 : 2287 < v) (h2 : v ≤ 67823) :
    compress_var_uint v = [249, (v - 2288) / 256, (v - 2288) % 256] := by
  rw [compress_var_uint, if_neg (by omega), if_neg (by omega), if_pos h2]
  simp only [write_byte, write_ushort, le_bytes_one]
  have e1 : (((v - 2288) % 2 ^ 16) <<< 8) % 2 ^ 16 = 2 ^ 8 * ((v - 2288) % 2 ^ 8) := by
    rw [Nat.shiftLeft_eq]
    have m1 : (v - 2288) % 2 ^ 16 = v - 2288 := by omega
    rw [m1]
    omega
  have e2 : ((v - 2288) >>> 8) % 2 ^ 16 = (v - 2288) / 2 ^ 8 := by
    rw [Nat.shiftRight_eq_div_pow]
    omega
  rw [e1, e2, ← Nat.mul_add_lt_is_or (by omega)]
  have hX : (2 ^ 8 * ((v - 2288) % 2 ^ 8) + (v - 2288) / 2 ^ 8) % 2 ^ 16
      = 2 ^ 8 * ((v - 2288) % 2 ^ 8) + (v - 2288) / 2 ^ 8 := by omega
  rw [hX, le_bytes_two]
  obtain ⟨q, r, hqr, hqb, hrb⟩ : ∃ q r, v - 2288 = 256 * q + r ∧ q < 256 ∧ r < 256 :=
    ⟨(v - 2288) / 256, (v - 2288) % 256, by omega, by omega, by omega⟩
  have r1 : (v - 2288) % 2 ^ 8 = r := by omega
  have r2 : (v - 2288) / 2 ^ 8 = q := by omega
  have r3 : (v - 2288) / 256 = q := by omega
  have r4 : (v - 2288) % 256 = r := by omega
  rw [r1, r2, r3, r4]
  simp only [List.cons_append, List.nil_append, List.cons.injEq, and_true]
  refine ⟨by omega, by omega, by omega⟩

theorem compress_tier4_eq (v : Nat) (h1 : 67823 < v) (h2 : v ≤ 16777215) :
    compress_var_uint v = 250 :: le_bytes 3 v := by
  rw [compress_var_uint, if_neg (by omega), if_neg (by omega), if_neg (by omega), if_pos h2]
  simp only [write_uint]
  have e1 : (v <<< 8) % 2 ^ 32 = 2 ^ 8 * v := by
    rw [Nat.shiftLeft_eq]
    omega
  rw [e1, ← Nat.mul_add_lt_is_or (by omega)]
  have hX : (2 ^ 8 * v + 250) % 2 ^ 32 = 2 ^ 8 * v + 250 := by omega
  rw [hX]
  exact le_bytes_mul_add 3 v 250 (by omega)

theorem compress_tier5_eq (v : Nat) (h1 : 16777215 < v) (h2 : v ≤ 4294967295) :
    compress_var_uint v = 251 :: le_bytes 4 v := by
  have n1 : ¬ v ≤ 240 := by omega
  have n2 : ¬ v ≤ 2287 := by omega
  have n3 : ¬ v ≤ 67823 := by omega
  have n4 : ¬ v ≤ 16777215 := by omega
  rw [compress_var_uint, if_neg n1, if_neg n2, if_neg n3, if_neg n4, if_pos h2]
  rw [show write_byte 251 = [251] from rfl]
  simp only [write_uint, List.cons_append, List.nil_append]
  have hX : v % 2 ^ 32 = v := by omega
  rw [hX, hX]

theorem compress_tier6_eq (v : Nat) (h1 : 4294967295 < v) (h2 : v ≤ 1099511627775) :
    compress_var_uint v = 252 :: v % 256 :: le_bytes 4 (v / 256) := by
  have n1 : ¬ v ≤ 240 := by omega
  have n2 : ¬ v ≤ 2287 := by omega
  have n3 : ¬ v ≤ 67823 := by omega
  have n4 : ¬ v ≤ 16777215 := by omega
  have n5 : ¬ v ≤ 4294967295 := by omega
  rw [compress_var_uint, if_neg n1, if_neg n2, if_neg n3, if_neg n4, if_neg n5, if_pos h2]
  have hand : v &&& 255 = v % 256 := by
    have h := Nat.and_pow_two_sub_one_eq_mod v 8
    norm_num at h
    exact h
  rw [hand]
  simp only [write_ushort, write_uint, List.cons_append, List.nil_append]
  have e1 : (((v % 256) % 2 ^ 16) <<< 8) % 2 ^ 16 = 2 ^ 8 * (v % 256) := by
    rw [Nat.shiftLeft_eq]
    omega
  have e2 : (v >>> 8) % 2 ^ 32 = v / 256 := by
    rw [Nat.shiftRight_eq_div_pow]
    omega
  rw [e1, e2, ← Nat.mul_add_lt_is_or (show (252 : Nat) < 2 ^ 8 by omega)]
  have hX : (2 ^ 8 * (v % 256) + 252) % 2 ^ 16 = 2 ^ 8 * (v % 256) + 252 := by omega
  have hc : v / 256 % 2 ^ 32 = v / 256 := by omega
  rw [hX, hc, le_bytes_two]
  simp only [List.cons_append, List.nil_append, List.cons.injEq, eq_self_iff_true, and_true]
  omega

theorem compress_tier7_eq (v : Nat) (h1 : 1099511627775 < v) (h2 : v ≤ 281474976710655) :
    compress_var_uint v = 253 :: v % 256 :: v / 256 % 256 :: le_bytes 4 (v / 2 ^ 16) := by
  have n1 : ¬ v ≤ 240 := by omega
  have n2 : ¬ v ≤ 2287 := by omega
  have n3 : ¬ v ≤ 67823 := by omega
  have n4 : ¬ v ≤ 16777215 := by omega
  have n5 : ¬ v ≤ 4294967295 := by omega
  have n6 : ¬ v ≤ 1099511627775 := by omega
  rw [compress_var_uint, if_neg n1, if_neg n2, if_neg n3, if_neg n4, if_neg n5, if_neg n6,
    if_pos h2]
  have e1 : ((v / 256 % 256 % 2 ^ 16) <<< 8) % 2 ^ 16 = 2 ^ 8 * (v / 256 % 256) := by
    rw [Nat.shiftLeft_eq]
    omega
  have e2 : (v >>> 16) % 2 ^ 32 = v / 2 ^ 16 := by
    rw [Nat.shiftRight_eq_div_pow]
    omega
  have hX : (2 ^ 8 * (v / 256 % 256) + v % 256 % 2 ^ 16) % 2 ^ 16
      = 2 ^ 8 * (v / 256 % 256) + v % 256 := by omega
  have hd : v / 2 ^ 16 % 2 ^ 32 = v / 2 ^ 16 := by omega
  have hand : v &&& 255 = v % 256 := by
    have h := Nat.and_pow_two_sub_one_eq_mod v 8
    norm_num at h
    exact h
  have hand2 : (v >>> 8) &&& 255 = v / 256 % 256 := by
    have h := Nat.and_pow_two_sub_one_eq_mod (v >>> 8) 8
    norm_num at h
    rw [h, Nat.shiftRight_eq_div_pow]
  rw [hand, hand2]
  clear hand hand2
  rw [show write_byte 253 = [253] from rfl]
  simp only [write_ushort, write_uint, List.cons_append, List.nil_append]
  rw [e1, e2, ← Nat.mul_add_lt_is_or (show v % 256 % 2 ^ 16 < 2 ^ 8 by omega)]
  rw [hX, hd, le_bytes_two]
  simp only [List.cons_append, List.nil_append, List.cons.injEq, eq_self_iff_true, and_true,
    true_and]
  obtain ⟨r1, hr1, hv1⟩ : ∃ r1, r1 < 256 ∧ v % 256 = r1 := ⟨v % 256, by omega, rfl⟩
  obtain ⟨r2, hr2, hv2⟩ : ∃ r2, r2 < 256 ∧ v / 256 % 256 = r2 := ⟨v / 256 % 256, by omega, rfl⟩
  rw [hv1, hv2]
  omega

theorem compress_tier8_eq (v : Nat) (h1 : 281474976710655 < v) (h2 : v ≤ 72057594037927935) :
    compress_var_uint v = 254 :: le_bytes 7 v := by
  have n1 : ¬ v ≤ 240 := by omega
  have n2 : ¬ v ≤ 2287 := by omega
  have n3 : ¬ v ≤ 67823 := by omega
  have n4 : ¬ v ≤ 16777215 := by omega
  have n5 : ¬ v ≤ 4294967295 := by omega
  have n6 : ¬ v ≤ 1099511627775 := by omega
  have n7 : ¬ v ≤ 281474976710655 := by omega
  rw [compress_var_uint, if_neg n1, if_neg n2, if_neg n3, if_neg n4, if_neg n5, if_neg n6,
    if_neg n7, if_pos h2]
  simp only [write_ulong]
  have e1 : (v <<< 8) % 2 ^ 64 = 2 ^ 8 * v := by
    rw [Nat.shiftLeft_eq]
    omega
  rw [e1, ← Nat.mul_add_lt_is_or (show (254 : Nat) < 2 ^ 8 by omega)]
  have hX : (2 ^ 8 * v + 254) % 2 ^ 64 = 2 ^ 8 * v + 254 := by omega
  rw [hX]
  exact le_bytes_mul_add 7 v 254 (by omega)

theorem compress_tier9_eq (v : Nat) (h1 : 72057594037927935 < v) (hv : v < 2 ^ 64) :
    compress_var_uint v = 255 :: le_bytes 8 v := by
  have n1 : ¬ v ≤ 240 := by omega
  have n2 : ¬ v ≤ 2287 := by omega
  have n3 : ¬ v ≤ 67823 := by omega
  have n4 : ¬ v ≤ 16777215 := by omega
  have n5 : ¬ v ≤ 4294967295 := by omega
  have n6 : ¬ v ≤ 1099511627775 := by omega
  have n7 : ¬ v ≤ 281474976710655 := by omega
  have n8 : ¬ v ≤ 72057594037927935 := by omega
  rw [compress_var_uint, if_neg n1, if_neg n2, if_neg n3, if_neg n4, if_neg n5, if_neg n6,
    if_neg n7, if_neg n8]
  rw [show write_byte 255 = [255] from rfl]
  simp only [write_ulong, List.cons_append, List.nil_append]
  have hX : v % 2 ^ 64 = v := by omega
  rw [hX]

theorem decompress_cons (a0 : Nat) (r : List Nat) :
    decompress_var_ulong (a0 :: r)
      = (if a0 ≤ 240 then some (a0, r)
        else if a0 ≤ 248 then
          match r with
          | b1 :: r1 => some (240 + 256 * (a0 - 241) + b1, r1)
          | [] => none
        else if a0 = 249 then
          match r with
          | b1 :: b2 :: r1 => some (2288 + 256 * b1 + b2, r1)
          | _ => none
        else if a0 = 250 then
          match r with
          | b1 :: b2 :: b3 :: r1 => some (b1 + 2 ^ 8 * b2 + 2 ^ 16 * b3, r1)
          | _ => none
        else if a0 = 251 then
          match r with
          | b1 :: b2 :: b3 :: b4 :: r1 =>
            some (b1 + 2 ^ 8 * b2 + 2 ^ 16 * b3 + 2 ^ 24 * b4, r1)
          | _ => none
        else if a0 = 252 then
          match r with
          | b1 :: b2 :: b3 :: b4 :: b5 :: r1 =>
            some (b1 + 2 ^ 8 * b2 + 2 ^ 16 * b3 + 2 ^ 24 * b4 + 2 ^ 32 * b5, r1)
          | _ => none
        else if a0 = 253 then
          match r with
          | b1 :: b2 :: b3 :: b4 :: b5 :: b6 :: r1 =>
            some (b1 + 2 ^ 8 * b2 + 2 ^ 16 * b3 + 2 ^ 24 * b4 + 2 ^ 32 * b5 +
              2 ^ 40 * b6, r1)
          | _ => none
        else if a0 = 254 then
          match r with
          | b1 :: b2 :: b3 :: b4 :: b5 :: b6 :: b7 :: r1 =>
            some (b1 + 2 ^ 8 * b2 + 2 ^ 16 * b3 + 2 ^ 24 * b4 + 2 ^ 32 * b5 +
              2 ^ 40 * b6 + 2 ^ 48 * b7, r1)
          | _ => none
        else
          match r with
          | b1 :: b2 :: b3 :: b4 :: b5 :: b6 :: b7 :: b8 :: r1 =>
            some (b1 + 2 ^ 8 * b2 + 2 ^ 16 * b3 + 2 ^ 24 * b4 + 2 ^ 32 * b5 +
              2 ^ 40 * b6 + 2 ^ 48 * b7 + 2 ^ 56 * b8, r1)
          | _ => none) := rfl

theorem round_trip_tier1 (v : Nat) (h : v ≤ 240) (rest : List Nat) :
    decompress_var_ulong (compress_var_uint v ++ rest) = some (v, rest) := by
  rw [compress_tier1_eq v h, List.cons_append, List.nil_append, decompress_cons, if_pos h]

theorem round_trip_tier2 (v : Nat) (h1 : 240 < v) (h2 : v ≤ 2287) (rest : List Nat) :
    decompress_var_ulong (compress_var_uint v ++ rest) = some (v, rest) := by
  rw [compress_tier2_eq v h1 h2]
  simp only [List.cons_append, List.nil_append, decompress_cons]
  rw [if_neg (by omega), if_pos (by omega)]
  simp only [Option.some.injEq, Prod.mk.injEq, and_true]
  omega

theorem round_trip_tier3 (v : Nat) (h1 : 2287 < v) (h2 : v ≤ 67823) (rest : List Nat) :
    decompress_var_ulong (compress_var_uint v ++ rest) = some (v, rest) := by
  rw [compress_tier3_eq v h1 h2]
  simp only [List.cons_append, List.nil_append, decompress_cons]
  norm_num
  omega

theorem round_trip_tier4 (v : Nat) (h1 : 67823 < v) (h2 : v ≤ 16777215) (rest : List Nat) :
    decompress_var_ulong (compress_var_uint v ++ rest) = some (v, rest) := by
  rw [compress_tier4_eq v h1 h2, le_bytes_three]
  simp only [List.cons_append, List.nil_append, decompress_cons]
  norm_num
  omega

theorem round_trip_tier5 (v : Nat) (h1 : 16777215 < v) (h2 : v ≤ 4294967295) (rest : List Nat) :
    decompress_var_ulong (compress_var_uint v ++ rest) = some (v, rest) := by
  rw [compress_tier5_eq v h1 h2, le_bytes_four]
  simp only [List.cons_append, List.nil_append, decompress_cons]
  norm_num
  omega

theorem round_trip_tier6 (v : Nat) (h1 : 4294967295 < v) (h2 : v ≤ 1099511627775)
    (rest : List Nat) :
    decompress_var_ulong (compress_var_uint v ++ rest) = some (v, rest) := by
  rw [compress_tier6_eq v h1 h2, le_bytes_four]
  simp only [List.cons_append, List.nil_append, decompress_cons]
  norm_num
  omega

theorem round_trip_tier7 (v : Nat) (h1 : 1099511627775 < v) (h2 : v ≤ 281474976710655)
    (rest : List Nat) :
    decompress_var_ulong (compress_var_uint v ++ rest) = some (v, rest) := by
  rw [compress_tier7_eq v h1 h2, le_bytes_four]
  simp only [List.cons_append, List.nil_append, decompress_cons]
  norm_num
  omega

theorem round_trip_tier8 (v : Nat) (h1 : 281474976710655 < v) (h2 : v ≤ 72057594037927935)
    (rest : List Nat) :
    decompress_var_ulong (compress_var_uint v ++ rest) = some (v, rest) := by
  rw [compress_tier8_eq v h1 h2, le_bytes_seven]
  simp only [List.cons_append, List.nil_append, decompress_cons]
  norm_num
  omega

theorem round_trip_tier9 (v : Nat) (h1 : 72057594037927935 < v) (hv : v < 2 ^ 64)
    (rest : List Nat) :
    decompress_var_ulong (compress_var_uint v ++ rest) = some (v, rest) := by
  rw [compress_tier9_eq v h1 hv, le_bytes_eight]
  simp only [List.cons_append, List.nil_append, decompress_cons]
  norm_num
  omega

theorem compress_var_uint_inv (v : Nat) (hv : v < 2 ^ 64) (rest : List Nat) :
    decompress_var_ulong (compress_var_uint v ++ rest) = some (v, rest) := by
  by_cases c1 : v ≤ 240
  · exact round_trip_tier1 v c1 rest
  by_cases c2 : v ≤ 2287
  · exact round_trip_tier2 v (by omega) c2 rest
  by_cases c3 : v ≤ 67823
  · exact round_trip_tier3 v (by omega) c3 rest
  by_cases c4 : v ≤ 16777215
  · exact round_trip_tier4 v (by omega) c4 rest
  by_cases c5 : v ≤ 4294967295
  · exact round_trip_tier5 v (by omega) c5 rest
  by_cases c6 : v ≤ 1099511627775
  · exact round_trip_tier6 v (by omega) c6 rest
  by_cases c7 : v ≤ 281474976710655
  · exact round_trip_tier7 v (by omega) c7 rest
  by_cases c8 : v ≤ 72057594037927935
  · exact round_trip_tier8 v (by omega) c8 rest
  · exact round_trip_tier9 v (by omega) hv rest

theorem compress_var_uint_length (v : Nat) (hv : v < 2 ^ 64) :
    (compress_var_uint v).length = var_uint_tier_len v := by
  by_cases c1 : v ≤ 240
  · rw [compress_tier1_eq v c1, var_uint_tier_len, if_pos c1]
    rfl
  by_cases c2 : v ≤ 2287
  · rw [compress_tier2_eq v (by omega) c2, var_uint_tier_len, if_neg c1, if_pos c2]
    rfl
  by_cases c3 : v ≤ 67823
  · rw [compress_tier3_eq v (by omega) c3, var_uint_tier_len, if_neg c1, if_neg c2, if_pos c3]
    rfl
  by_cases c4 : v ≤ 16777215
  · rw [compress_tier4_eq v (by omega) c4, var_uint_tier_len, if_neg c1, if_neg c2, if_neg c3,
      if_pos c4]
    simp [le_bytes_length]
  by_cases c5 : v ≤ 4294967295
  · rw [compress_tier5_eq v (by omega) c5, var_uint_tier_len, if_neg c1, if_neg c2, if_neg c3,
      if_neg c4, if_pos c5]
    simp [le_bytes_length]
  by_cases c6 : v ≤ 1099511627775
  · rw [compress_tier6_eq v (by omega) c6, var_uint_tier_len, if_neg c1, if_neg c2, if_neg c3,
      if_neg c4, if_neg c5, if_pos c6]
    simp [le_bytes_length]
  by_cases c7 : v ≤ 281474976710655
  · rw [compress_tier7_eq v (by omega) c7, var_uint_tier_len, if_neg c1, if_neg c2, if_neg c3,
      if_neg c4, if_neg c5, if_neg c6, if_pos c7]
    simp [le_bytes_length]
  by_cases c8 : v ≤ 72057594037927935
  · rw [compress_tier8_eq v (by omega) c8, var_uint_tier_len, if_neg c1, if_neg c2, if_neg c3,
      if_neg c4, if_neg c5, if_neg c6, if_neg c7, if_pos c8]
    simp [le_bytes_length]
  · rw [compress_tier9_eq v (by omega) hv, var_uint_tier_len, if_neg c1, if_neg c2, if_neg c3,
      if_neg c4, if_neg c5, if_neg c6, if_neg c7, if_neg c8]
    simp [le_bytes_length]

/-- C1: for every unsigned 64-bit value `v`, decoding the varint encoding of
`v` yields `v` back (with no bytes left over), and the encoder always selects
the minimal sufficient tier: it emits exactly 1 byte when `v ≤ 240`, 2 bytes
when `v ≤ 2287`, 3 when `v ≤ 67823`, 4 when `v ≤ 16777215`, 5 when
`v ≤ 4294967295`, 6 when `v ≤ 1099511627775`, 7 when `v ≤ 281474976710655`,
8 when `v ≤ 72057594037927935`, and 9 bytes otherwise (see
`var_uint_tier_len`). -/
theorem varint_round_trip_and_minimal_tier (v : Nat) (hv : v < 2 ^ 64) :
    decompress_var_ulong (compress_var_uint v) = some (v, []) ∧
    (compress_var_uint v).length = var_uint_tier_len v :=
  ⟨by simpa using compress_var_uint_inv v hv [], compress_var_uint_length v hv⟩

/-- Witness for C1 at the 3-byte tier boundary value 2288. -/
theorem varint_round_trip_and_minimal_tier_witness :
    2288 < 2 ^ 64 ∧
      (decompress_var_ulong (compress_var_uint 2288) = some (2288, []) ∧
       (compress_var_uint 2288).length = var_uint_tier_len 2288) :=
  ⟨by decide, varint_round_trip_and_minimal_tier 2288 (by decide)⟩


theorem server_dirty_masks_go_testBit_lo (initial : Bool) (comps : List NetworkBehaviourState) :
    ∀ i j : Nat, i + comps.length ≤ 64 → j < i →
      (server_dirty_masks_go initial i comps).1.testBit j = false ∧
      (server_dirty_masks_go initial i comps).2.testBit j = false := by
  induction comps with
  | nil =>
    intro i j _ _
    simp [server_dirty_masks_go]
  | cons c rest ih =>
    intro i j hlen hj
    simp only [List.length_cons] at hlen
    rcases hrec : server_dirty_masks_go initial (i + 1) rest with ⟨o, s⟩
    have hrest := ih (i + 1) j (by omega) (by omega)
    rw [hrec] at hrest
    simp only [server_dirty_masks_go, hrec]
    have hmod : i % 64 = i := Nat.mod_eq_of_lt (by omega)
    constructor
    · rw [Nat.testBit_or, hrest.1, Bool.or_false]
      split
      · rw [Nat.shiftLeft_eq, one_mul, hmod]
        exact Nat.testBit_two_pow_of_ne (by omega)
      · exact Nat.zero_testBit j
    · rw [Nat.testBit_or, hrest.2, Bool.or_false]
      split
      · rw [Nat.shiftLeft_eq, one_mul, hmod]
        exact Nat.testBit_two_pow_of_ne (by omega)
      · exact Nat.zero_testBit j

theorem server_dirty_masks_go_testBit (initial : Bool) (comps : List NetworkBehaviourState) :
    ∀ i k : Nat, i + comps.length ≤ 64 → ∀ hk : k < comps.length,
      (server_dirty_masks_go initial i comps).1.testBit (i + k) =
        (initial || (comps[k].sync_direction == SyncDirection.ServerToClient &&
          comps[k].is_dirty)) ∧
      (server_dirty_masks_go initial i comps).2.testBit (i + k) =
        (comps[k].sync_mode == SyncMode.Observers && (initial || comps[k].is_dirty)) := by
  induction comps with
  | nil =>
    intro i k _ hk
    simp at hk
  | cons c rest ih =>
    intro i k hlen hk
    simp only [List.length_cons] at hlen
    rcases hrec : server_dirty_masks_go initial (i + 1) rest with ⟨o, s⟩
    simp only [server_dirty_masks_go, hrec]
    have hmod : i % 64 = i := Nat.mod_eq_of_lt (by omega)
    match k with
    | 0 =>
      have hlo := server_dirty_masks_go_testBit_lo initial rest (i + 1) i (by omega) (by omega)
      rw [hrec] at hlo
      simp only [List.getElem_cons_zero, Nat.add_zero]
      constructor
      · rw [Nat.testBit_or, hlo.1, Bool.or_false]
        split
        · rename_i hcond
          rw [Nat.shiftLeft_eq, one_mul, hmod, Nat.testBit_two_pow_self, hcond]
        · rename_i hcond
          rw [Nat.zero_testBit]
          exact (Bool.not_eq_true _).mp hcond |>.symm ▸ rfl
      · rw [Nat.testBit_or, hlo.2, Bool.or_false]
        split
        · rename_i hcond
          rw [Nat.shiftLeft_eq, one_mul, hmod, Nat.testBit_two_pow_self, hcond]
        · rename_i hcond
          rw [Nat.zero_testBit]
          exact (Bool.not_eq_true _).mp hcond |>.symm ▸ rfl
    | k + 1 =>
      have hrest := ih (i + 1) k (by omega) (by simp at hk; omega)
      rw [hrec] at hrest
      simp only [List.getElem_cons_succ]
      have harith : i + (k + 1) = (i + 1) + k := by omega
      rw [harith]
      constructor
      · rw [Nat.testBit_or, hrest.1]
        have hbit : (if (initial || (c.sync_direction == SyncDirection.ServerToClient &&
            c.is_dirty)) = true then (1 : Nat) <<< (i % 64) else 0).testBit (i + 1 + k)
            = false := by
          split
          · rw [Nat.shiftLeft_eq, one_mul, hmod]
            exact Nat.testBit_two_pow_of_ne (by omega)
          · exact Nat.zero_testBit _
        rw [hbit, Bool.false_or]
      · rw [Nat.testBit_or, hrest.2]
        have hbit : (if (c.sync_mode == SyncMode.Observers && (initial || c.is_dirty))
            = true then (1 : Nat) <<< (i % 64) else 0).testBit (i + 1 + k) = false := by
          split
          · rw [Nat.shiftLeft_eq, one_mul, hmod]
            exact Nat.testBit_two_pow_of_ne (by omega)
          · exact Nat.zero_testBit _
        rw [hbit, Bool.false_or]

/-- C2: for every replicated object and every component slot `i`
(`i < network_behaviours_count`, at most 64 slots), the server serialization
masks satisfy: the owner-mask bit `i` is set exactly when the serialization
is initial, or the component's sync direction is server-to-client and the
component is dirty; and the observer-mask bit `i` is set exactly when the
component's sync mode is `Observers` and the component is dirty or the
serialization is initial. -/
theorem server_dirty_masks_bit_characterization (initial : Bool)
    (comps : List NetworkBehaviourState) (i : Nat) (hi : i < comps.length)
    (hlen : comps.length ≤ 64) :
    (server_dirty_masks initial comps).1.testBit i =
      (initial || (comps[i].sync_direction == SyncDirection.ServerToClient &&
        comps[i].is_dirty)) ∧
    (server_dirty_masks initial comps).2.testBit i =
      (comps[i].sync_mode == SyncMode.Observers && (initial || comps[i].is_dirty)) := by
  have h := server_dirty_masks_go_testBit initial comps 0 i (by omega) hi
  simpa [server_dirty_masks] using h

/-- Witness for C2: a two-component object, non-initial serialization, slot 0:
a dirty server-to-client observers-mode component has both mask bits set. -/
theorem server_dirty_masks_bit_characterization_witness :
    (0 : Nat) <
      ([⟨1, SyncDirection.ServerToClient, SyncMode.Observers, [], true⟩,
        ⟨1, SyncDirection.ClientToServer, SyncMode.Owner, [], true⟩] :
        List NetworkBehaviourState).length ∧
    ([⟨1, SyncDirection.ServerToClient, SyncMode.Observers, [], true⟩,
      ⟨1, SyncDirection.ClientToServer, SyncMode.Owner, [], true⟩] :
      List NetworkBehaviourState).length ≤ 64 ∧
    ((server_dirty_masks false
        [⟨1, SyncDirection.ServerToClient, SyncMode.Observers, [], true⟩,
         ⟨1, SyncDirection.ClientToServer, SyncMode.Owner, [], true⟩]).1.testBit 0 =
      (false || ((SyncDirection.ServerToClient == SyncDirection.ServerToClient) &&
        NetworkBehaviourState.is_dirty
          ⟨1, SyncDirection.ServerToClient, SyncMode.Observers, [], true⟩)) ∧
     (server_dirty_masks false
        [⟨1, SyncDirection.ServerToClient, SyncMode.Observers, [], true⟩,
         ⟨1, SyncDirection.ClientToServer, SyncMode.Owner, [], true⟩]).2.testBit 0 =
      ((SyncMode.Observers == SyncMode.Observers) &&
        (false || NetworkBehaviourState.is_dirty
          ⟨1, SyncDirection.ServerToClient, SyncMode.Observers, [], true⟩))) := by
  refine ⟨by decide, by decide, ?_⟩
  exact server_dirty_masks_bit_characterization false
    [⟨1, SyncDirection.ServerToClient, SyncMode.Observers, [], true⟩,
     ⟨1, SyncDirection.ClientToServer, SyncMode.Owner, [], true⟩] 0 (by decide) (by decide)

theorem deserialize_server_go_length (mask : Nat) (comps : List NetworkBehaviourState) :
    ∀ i : Nat, (deserialize_server_go mask i comps).2.length = comps.length := by
  induction comps with
  | nil => intro i; rfl
  | cons c rest ih =>
    intro i
    rcases hrec : deserialize_server_go mask (i + 1) rest with ⟨ok, rest'⟩
    have hlen := ih (i + 1)
    rw [hrec] at hlen
    simp only [deserialize_server_go, hrec]
    split
    · split
      · split
        · simp
        · simpa using hlen
      · simpa using hlen
    · simpa using hlen

theorem deserialize_server_go_ok_iff (mask : Nat) (comps : List NetworkBehaviourState) :
    ∀ i : Nat,
      ((deserialize_server_go mask i comps).1 = true ↔
        ∀ k : Nat, ∀ hk : k < comps.length, NetworkIdentity.is_dirty mask (i + k) = true →
          comps[k].sync_direction = SyncDirection.ServerToClient →
          comps[k].deserialize_ok = true) := by
  induction comps with
  | nil =>
    intro i
    simp [deserialize_server_go]
  | cons c rest ih =>
    intro i
    rcases hrec : deserialize_server_go mask (i + 1) rest with ⟨ok, rest'⟩
    have hih := ih (i + 1)
    rw [hrec] at hih
    simp only [deserialize_server_go, hrec]
    have hsplit : (∀ k : Nat, ∀ hk : k < (c :: rest).length,
        NetworkIdentity.is_dirty mask (i + k) = true →
        (c :: rest)[k].sync_direction = SyncDirection.ServerToClient →
        (c :: rest)[k].deserialize_ok = true) ↔
        ((NetworkIdentity.is_dirty mask i = true →
          c.sync_direction = SyncDirection.ServerToClient → c.deserialize_ok = true) ∧
         (∀ k : Nat, ∀ hk : k < rest.length,
           NetworkIdentity.is_dirty mask (i + 1 + k) = true →
           rest[k].sync_direction = SyncDirection.ServerToClient →
           rest[k].deserialize_ok = true)) := by
      constructor
      · intro h
        refine ⟨?_, ?_⟩
        · have := h 0 (by simp)
          simpa using this
        · intro k hk
          have := h (k + 1) (by simp; omega)
          have harith : i + (k + 1) = i + 1 + k := by omega
          rw [harith] at this
          simpa using this
      · rintro ⟨h0, hrest⟩ k hk
        match k with
        | 0 => simpa using h0
        | k + 1 =>
          have harith : i + (k + 1) = i + 1 + k := by omega
          rw [harith]
          have := hrest k (by simp at hk; omega)
          simpa using this
    rw [hsplit]
    by_cases hbit : NetworkIdentity.is_dirty mask i = true
    · rw [if_pos hbit]
      by_cases hdir : c.sync_direction == SyncDirection.ServerToClient
      · rw [if_pos hdir]
        have hdir2 : c.sync_direction = SyncDirection.ServerToClient := by
          exact beq_iff_eq.mp hdir
        by_cases hok : c.deserialize_ok
        · have : (!c.deserialize_ok) = false := by simp [hok]
          rw [this]
          simp only [Bool.false_eq_true, if_false]
          rw [hih]
          constructor
          · intro h
            exact ⟨fun _ _ => hok, h⟩
          · intro h
            exact h.2
        · have hok2 : c.deserialize_ok = false := by simp at hok; exact hok
          have : (!c.deserialize_ok) = true := by simp [hok2]
          rw [this, if_pos rfl]
          constructor
          · intro h
            exact absurd h (by simp)
          · rintro ⟨h0, _⟩
            exact absurd (h0 hbit hdir2) (by simp [hok2])
      · rw [if_neg hdir]
        have hdir2 : ¬ c.sync_direction = SyncDirection.ServerToClient := by
          simpa using hdir
        rw [hih]
        constructor
        · intro h
          exact ⟨fun _ hd => absurd hd hdir2, h⟩
        · intro h
          exact h.2
    · rw [if_neg hbit]
      rw [hih]
      constructor
      · intro h
        exact ⟨fun hb => absurd hb hbit, h⟩
      · intro h
        exact h.2

theorem deserialize_server_go_components (mask : Nat) (comps : List NetworkBehaviourState) :
    ∀ i : Nat, (deserialize_server_go mask i comps).1 = true →
      ∀ k : Nat, k < comps.length →
        (deserialize_server_go mask i comps).2[k]? =
          some (if NetworkIdentity.is_dirty mask (i + k) &&
              (comps[k]!.sync_direction == SyncDirection.ServerToClient)
            then comps[k]!.set_dirty else comps[k]!) := by
  induction comps with
  | nil =>
    intro i _ k hk
    simp at hk
  | cons c rest ih =>
    intro i hsucc k hk
    rcases hrec : deserialize_server_go mask (i + 1) rest with ⟨ok, rest'⟩
    have hih := ih (i + 1)
    rw [hrec] at hih
    rw [deserialize_server_go, hrec] at hsucc ⊢
    by_cases hbit : NetworkIdentity.is_dirty mask i = true
    · rw [if_pos hbit] at hsucc ⊢
      by_cases hdir : c.sync_direction == SyncDirection.ServerToClient
      · rw [if_pos hdir] at hsucc ⊢
        by_cases hok : c.deserialize_ok
        · have hnot : (!c.deserialize_ok) = false := by simp [hok]
          rw [hnot] at hsucc ⊢
          simp only [Bool.false_eq_true, if_false] at hsucc ⊢
          match k with
          | 0 =>
            simp only [List.getElem?_cons_zero, Nat.add_zero, hbit, hdir]
            simp [NetworkBehaviourState.set_dirty, beq_iff_eq.mp hdir]
          | k + 1 =>
            simp only [List.getElem?_cons_succ]
            have harith : i + (k + 1) = i + 1 + k := by omega
            rw [harith]
            have := hih hsucc k (by simp at hk; omega)
            simpa using this
        · have hok2 : c.deserialize_ok = false := by simp at hok; exact hok
          have hnot : (!c.deserialize_ok) = true := by simp [hok2]
          rw [hnot, if_pos rfl] at hsucc
          exact absurd hsucc (by simp)
      · rw [if_neg hdir] at hsucc ⊢
        match k with
        | 0 =>
          simp only [List.getElem?_cons_zero, Nat.add_zero]
          have hdirf : (c.sync_direction == SyncDirection.ServerToClient) = false := by
            simpa using hdir
          simp [hdirf]
        | k + 1 =>
          simp only [List.getElem?_cons_succ]
          have harith : i + (k + 1) = i + 1 + k := by omega
          rw [harith]
          have := hih hsucc k (by simp at hk; omega)
          simpa using this
    · rw [if_neg hbit] at hsucc ⊢
      have hbitf : NetworkIdentity.is_dirty mask i = false := by
        simpa using hbit
      match k with
      | 0 =>
        simp only [List.getElem?_cons_zero, Nat.add_zero]
        simp [hbitf]
      | k + 1 =>
        simp only [List.getElem?_cons_succ]
        have harith : i + (k + 1) = i + 1 + k := by omega
        rw [harith]
        have := hih hsucc k (by simp at hk; omega)
        simpa using this

/-- C3 counterexample: the varint byte `[1]` decodes to mask 1, which selects
component 0; that component's sync direction is `ClientToServer`, so by the
claim its deserialization should fail - but `deserialize_server` returns
`true` (success) and leaves the component untouched: a direction mismatch is
skipped silently, not treated as an error. -/
theorem deserialize_server_mismatch_is_silent :
    decompress_var_ulong [1] = some (1, []) ∧
    NetworkIdentity.is_dirty 1 0 = true ∧
    deserialize_server [⟨0, SyncDirection.ClientToServer, SyncMode.Observers, [], true⟩] 1
      = (true, [⟨0, SyncDirection.ClientToServer, SyncMode.Observers, [], true⟩]) := by
  decide

/-- C3 amended: for each component whose bit is set in the decoded varint
mask, the component is deserialized (and marked dirty) only if its sync
direction is `ServerToClient`; a set bit whose component has any other
direction is skipped silently, leaving the component unchanged, rather than
failing.  `deserialize_server` returns `false` only when the component
deserializer of a selected `ServerToClient` component itself fails. -/
theorem deserialize_server_direction_gate (comps : List NetworkBehaviourState) (mask : Nat) :
    ((deserialize_server comps mask).1 = true ↔
      ∀ i : Nat, ∀ hi : i < comps.length, NetworkIdentity.is_dirty mask i = true →
        comps[i].sync_direction = SyncDirection.ServerToClient →
        comps[i].deserialize_ok = true) ∧
    ((deserialize_server comps mask).1 = true →
      ∀ i : Nat, i < comps.length →
        (deserialize_server comps mask).2[i]? =
          some (if NetworkIdentity.is_dirty mask i &&
              (comps[i]!.sync_direction == SyncDirection.ServerToClient)
            then comps[i]!.set_dirty else comps[i]!)) := by
  constructor
  · have h := deserialize_server_go_ok_iff mask comps 0
    simpa [deserialize_server] using h
  · intro hsucc i hi
    have h := deserialize_server_go_components mask comps 0 hsucc i hi
    simpa [deserialize_server] using h

/-- Witness for C3 amended, on a two-component object with mask 3: component
0 (`ServerToClient`, deserializer succeeds) is deserialized and marked dirty,
component 1 (`ClientToServer`) is skipped unchanged, and the call succeeds. -/
theorem deserialize_server_direction_gate_witness :
    (deserialize_server
        [⟨0, SyncDirection.ServerToClient, SyncMode.Observers, [], true⟩,
         ⟨7, SyncDirection.ClientToServer, SyncMode.Owner, [], true⟩] 3).2[0]? =
      some (if NetworkIdentity.is_dirty 3 0 &&
          (([⟨0, SyncDirection.ServerToClient, SyncMode.Observers, [], true⟩,
             ⟨7, SyncDirection.ClientToServer, SyncMode.Owner, [], true⟩] :
             List NetworkBehaviourState)[0]!.sync_direction ==
            SyncDirection.ServerToClient)
        then ([⟨0, SyncDirection.ServerToClient, SyncMode.Observers, [], true⟩,
               ⟨7, SyncDirection.ClientToServer, SyncMode.Owner, [], true⟩] :
               List NetworkBehaviourState)[0]!.set_dirty
        else ([⟨0, SyncDirection.ServerToClient, SyncMode.Observers, [], true⟩,
               ⟨7, SyncDirection.ClientToServer, SyncMode.Owner, [], true⟩] :
               List NetworkBehaviourState)[0]!) :=
  (deserialize_server_direction_gate
      [⟨0, SyncDirection.ServerToClient, SyncMode.Observers, [], true⟩,
       ⟨7, SyncDirection.ClientToServer, SyncMode.Owner, [], true⟩] 3).2
    (by decide) 0 (by decide)

theorem serialize_server_go_components (initial : Bool) (owner_mask observers_mask : Nat)
    (comps : List NetworkBehaviourState) :
    ∀ i : Nat, ∀ k : Nat, k < comps.length →
      (serialize_server_go initial owner_mask observers_mask i comps).2.2[k]? =
        some (if (NetworkIdentity.is_dirty owner_mask (i + k) ||
              NetworkIdentity.is_dirty observers_mask (i + k)) && !initial
          then comps[k]!.clear_all_dirty_bits else comps[k]!) := by
  induction comps with
  | nil =>
    intro i k hk
    simp at hk
  | cons c rest ih =>
    intro i k hk
    rcases hrec : serialize_server_go initial owner_mask observers_mask (i + 1) rest
      with ⟨o_rest, s_rest, c_rest⟩
    have hih := ih (i + 1)
    rw [hrec] at hih
    rw [serialize_server_go, hrec]
    match k with
    | 0 =>
      simp only [List.getElem?_cons_zero, Nat.add_zero]
      simp
    | k + 1 =>
      simp only [List.getElem?_cons_succ]
      have harith : i + (k + 1) = i + 1 + k := by omega
      rw [harith]
      have := hih k (by simp at hk; omega)
      simpa using this

theorem lor_eq_zero_parts {o s : Nat} (h : o ||| s = 0) : o = 0 ∧ s = 0 := by
  constructor
  · apply Nat.eq_of_testBit_eq
    intro j
    have hj := congrArg (fun n => Nat.testBit n j) h
    simp only [Nat.testBit_or, Nat.zero_testBit] at hj
    simp [Bool.or_eq_false_iff.mp hj]
  · apply Nat.eq_of_testBit_eq
    intro j
    have hj := congrArg (fun n => Nat.testBit n j) h
    simp only [Nat.testBit_or, Nat.zero_testBit] at hj
    simp [Bool.or_eq_false_iff.mp hj]

/-- C4 counterexample: a dirty component (dirty bits 1) whose direction is
`ClientToServer` and whose mode is `Owner` is selected into neither mask by a
non-initial `serialize_server`, so its dirty bits survive the flush - the
claim that every component's dirty bits are cleared fails. -/
theorem serialize_server_keeps_unselected_dirty_bits :
    NetworkBehaviourState.is_dirty
      ⟨1, SyncDirection.ClientToServer, SyncMode.Owner, [], true⟩ = true ∧
    (serialize_server false
        [⟨1, SyncDirection.ClientToServer, SyncMode.Owner, [], true⟩]).2.2
      = [⟨1, SyncDirection.ClientToServer, SyncMode.Owner, [], true⟩] ∧
    ¬ (∀ c ∈ (serialize_server false
        [⟨1, SyncDirection.ClientToServer, SyncMode.Owner, [], true⟩]).2.2,
      c.sync_var_dirty_bits = 0) := by
  decide

/-- C4 amended: after `serialize_server` with `initial_state = false`, the
components selected into the owner or the observer mask have all their dirty
bits cleared, and exactly those: a component selected into neither mask (for
example a dirty `ClientToServer`/`Owner` component) keeps its dirty bits
unchanged. -/
theorem serialize_server_clears_exactly_selected (comps : List NetworkBehaviourState)
    (i : Nat) (hi : i < comps.length) :
    (serialize_server false comps).2.2[i]? =
      some (if NetworkIdentity.is_dirty (server_dirty_masks false comps).1 i ||
          NetworkIdentity.is_dirty (server_dirty_masks false comps).2 i
        then comps[i]!.clear_all_dirty_bits else comps[i]!) := by
  rcases hmask : server_dirty_masks false comps with ⟨o, s⟩
  rw [serialize_server, hmask]
  dsimp only
  by_cases hz : (o ||| s) ≠ 0
  · rw [if_pos hz]
    rcases hgo : serialize_server_go false o s 0 comps with ⟨ob, sb, comps2⟩
    have h := serialize_server_go_components false o s comps 0 i hi
    rw [hgo] at h
    simpa using h
  · rw [if_neg hz]
    push_neg at hz
    obtain ⟨ho, hs⟩ := lor_eq_zero_parts hz
    subst ho
    subst hs
    have hbit : ∀ j : Nat, NetworkIdentity.is_dirty 0 j = false := by
      intro j
      simp [NetworkIdentity.is_dirty]
    simp only [hbit, Bool.or_false, Bool.false_or]
    simp only [Bool.false_eq_true, if_false, List.getElem?_eq_getElem hi,
      Option.some.injEq]
    rw [getElem!_pos comps i hi]

/-- Witness for C4 amended at slot 0 of a one-component object: the dirty
`ServerToClient`/`Observers` component is selected and cleared. -/
theorem serialize_server_clears_exactly_selected_witness :
    (0 : Nat) <
      ([⟨5, SyncDirection.ServerToClient, SyncMode.Observers, [2], true⟩] :
        List NetworkBehaviourState).length ∧
    (serialize_server false
        [⟨5, SyncDirection.ServerToClient, SyncMode.Observers, [2], true⟩]).2.2[0]? =
      some (if NetworkIdentity.is_dirty
            (server_dirty_masks false
              [⟨5, SyncDirection.ServerToClient, SyncMode.Observers, [2], true⟩]).1 0 ||
          NetworkIdentity.is_dirty
            (server_dirty_masks false
              [⟨5, SyncDirection.ServerToClient, SyncMode.Observers, [2], true⟩]).2 0
        then ([⟨5, SyncDirection.ServerToClient, SyncMode.Observers, [2], true⟩] :
            List NetworkBehaviourState)[0]!.clear_all_dirty_bits
        else ([⟨5, SyncDirection.ServerToClient, SyncMode.Observers, [2], true⟩] :
            List NetworkBehaviourState)[0]!) :=
  ⟨by decide, serialize_server_clears_exactly_selected
    [⟨5, SyncDirection.ServerToClient, SyncMode.Observers, [2], true⟩] 0 (by decide)⟩

theorem snapshots_insert_if_absent_length (buf : List (Rat × TimeSnapshot)) (k : Rat)
    (s : TimeSnapshot) :
    (snapshots_insert_if_absent buf k s).length ≤ buf.length + 1 := by
  induction buf with
  | nil => simp [snapshots_insert_if_absent]
  | cons kv rest ih =>
    rcases kv with ⟨k0, s0⟩
    rw [snapshots_insert_if_absent]
    split
    · simp
    · split
      · simp
      · simpa using Nat.succ_le_succ ih

theorem on_time_snapshot_limit_eq (conn : NetworkConnectionToClient) (s : TimeSnapshot) :
    (on_time_snapshot conn s).snapshot_buffer_size_limit = conn.snapshot_buffer_size_limit := by
  rw [on_time_snapshot]
  split
  · rfl
  · rfl

theorem on_time_snapshot_length_le (conn : NetworkConnectionToClient) (s : TimeSnapshot)
    (h : conn.snapshots.length ≤ conn.snapshot_buffer_size_limit) :
    (on_time_snapshot conn s).snapshots.length ≤ conn.snapshot_buffer_size_limit := by
  rw [on_time_snapshot]
  split
  · exact h
  · rename_i hlt
    push_neg at hlt
    have := snapshots_insert_if_absent_length conn.snapshots s.remote_time s
    simp only
    omega

/-- C5: a fresh connection has an empty buffer and the default limit 64;
inserting a time snapshot into a connection whose buffer is at its limit is
rejected, leaving the connection (and so the buffer length) unchanged; and
under any sequence of insertions the buffer length never exceeds the limit. -/
theorem snapshot_buffer_never_exceeds_limit :
    (∀ ts send_interval : Rat,
      (NetworkConnectionToClient.new ts send_interval).snapshots.length = 0 ∧
      (NetworkConnectionToClient.new ts send_interval).snapshot_buffer_size_limit = 64) ∧
    (∀ conn : NetworkConnectionToClient, ∀ s : TimeSnapshot,
      conn.snapshots.length = conn.snapshot_buffer_size_limit →
      on_time_snapshot conn s = conn) ∧
    (∀ conn : NetworkConnectionToClient, ∀ l : List TimeSnapshot,
      conn.snapshots.length ≤ conn.snapshot_buffer_size_limit →
      (l.foldl on_time_snapshot conn).snapshots.length ≤
        (l.foldl on_time_snapshot conn).snapshot_buffer_size_limit) := by
  refine ⟨fun ts send_interval => ⟨rfl, rfl⟩, ?_, ?_⟩
  · intro conn s h
    rw [on_time_snapshot, if_pos (by omega)]
  · intro conn l
    induction l generalizing conn with
    | nil => intro h; simpa using h
    | cons s rest ih =>
      intro h
      simp only [List.foldl_cons]
      apply ih
      rw [on_time_snapshot_limit_eq]
      exact on_time_snapshot_length_le conn s h

/-- Witness for C5: a connection whose buffer (one slot, limit 1) is full
rejects a further snapshot unchanged, and folding three insertions into a
fresh connection stays within the limit. -/
theorem snapshot_buffer_never_exceeds_limit_witness :
    ({ NetworkConnectionToClient.new 0 1 with
        snapshots := [(1, ⟨1, 0⟩)],
        snapshot_buffer_size_limit := 1 } : NetworkConnectionToClient).snapshots.length =
      ({ NetworkConnectionToClient.new 0 1 with
        snapshots := [(1, ⟨1, 0⟩)],
        snapshot_buffer_size_limit := 1 } : NetworkConnectionToClient).snapshot_buffer_size_limit ∧
    on_time_snapshot
        { NetworkConnectionToClient.new 0 1 with
          snapshots := [(1, ⟨1, 0⟩)], snapshot_buffer_size_limit := 1 } ⟨2, 0⟩ =
      { NetworkConnectionToClient.new 0 1 with
        snapshots := [(1, ⟨1, 0⟩)], snapshot_buffer_size_limit := 1 } ∧
    (([⟨1, 0⟩, ⟨2, 0⟩, ⟨3, 0⟩] : List TimeSnapshot).foldl on_time_snapshot
        (NetworkConnectionToClient.new 0 1)).snapshots.length ≤
      (([⟨1, 0⟩, ⟨2, 0⟩, ⟨3, 0⟩] : List TimeSnapshot).foldl on_time_snapshot
        (NetworkConnectionToClient.new 0 1)).snapshot_buffer_size_limit := by
  refine ⟨by decide, ?_, ?_⟩
  · exact snapshot_buffer_never_exceeds_limit.2.1 _ ⟨2, 0⟩ (by decide)
  · exact snapshot_buffer_never_exceeds_limit.2.2 (NetworkConnectionToClient.new 0 1)
      [⟨1, 0⟩, ⟨2, 0⟩, ⟨3, 0⟩] (by decide)

/-- C6: a message whose serialized size exceeds the maximum message size of
the chosen channel is refused wholesale: `send_network_message` returns the
connection unchanged, so nothing is appended to either the reliable or the
unreliable batcher. -/
theorem send_network_message_oversize_refused (conn : NetworkConnection)
    (message_bytes : List Nat) (channel : TransportChannel) (max : Nat) (t : Rat)
    (h : message_bytes.length > max) :
    send_network_message conn message_bytes channel max t = conn ∧
    (send_network_message conn message_bytes channel max t).reliable_batcher =
      conn.reliable_batcher ∧
    (send_network_message conn message_bytes channel max t).unreliable_batcher =
      conn.unreliable_batcher := by
  rw [send_network_message, if_pos h]
  exact ⟨rfl, rfl, rfl⟩

/-- Witness for C6: a 3-byte message against a limit of 2 on the reliable
channel leaves a concrete fresh connection untouched. -/
theorem send_network_message_oversize_refused_witness :
    ([1, 2, 3] : List Nat).length > 2 ∧
    (send_network_message
        ⟨7, Batcher.new 1500, Batcher.new 1500, false, 0, false, 0, [], 0, 0, 0⟩
        [1, 2, 3] TransportChannel.Reliable 2 0 =
      ⟨7, Batcher.new 1500, Batcher.new 1500, false, 0, false, 0, [], 0, 0, 0⟩ ∧
    (send_network_message
        ⟨7, Batcher.new 1500, Batcher.new 1500, false, 0, false, 0, [], 0, 0, 0⟩
        [1, 2, 3] TransportChannel.Reliable 2 0).reliable_batcher =
      (⟨7, Batcher.new 1500, Batcher.new 1500, false, 0, false, 0, [], 0, 0, 0⟩ :
        NetworkConnection).reliable_batcher ∧
    (send_network_message
        ⟨7, Batcher.new 1500, Batcher.new 1500, false, 0, false, 0, [], 0, 0, 0⟩
        [1, 2, 3] TransportChannel.Reliable 2 0).unreliable_batcher =
      (⟨7, Batcher.new 1500, Batcher.new 1500, false, 0, false, 0, [], 0, 0, 0⟩ :
        NetworkConnection).unreliable_batcher) :=
  ⟨by decide, send_network_message_oversize_refused
    ⟨7, Batcher.new 1500, Batcher.new 1500, false, 0, false, 0, [], 0, 0, 0⟩
    [1, 2, 3] TransportChannel.Reliable 2 0 (by decide)⟩

theorem serialize_server_go_length (initial : Bool) (owner_mask observers_mask : Nat)
    (comps : List NetworkBehaviourState) :
    ∀ i : Nat,
      (serialize_server_go initial owner_mask observers_mask i comps).2.2.length =
        comps.length := by
  induction comps with
  | nil => intro i; rfl
  | cons c rest ih =>
    intro i
    rcases hrec : serialize_server_go initial owner_mask observers_mask (i + 1) rest
      with ⟨o_rest, s_rest, c_rest⟩
    have hlen := ih (i + 1)
    rw [hrec] at hlen
    rw [serialize_server_go, hrec]
    simpa using hlen

theorem serialize_server_length (initial : Bool) (comps : List NetworkBehaviourState) :
    (serialize_server initial comps).2.2.length = comps.length := by
  rcases hmask : server_dirty_masks initial comps with ⟨o, s⟩
  rw [serialize_server, hmask]
  dsimp only
  split
  · rcases hgo : serialize_server_go initial o s 0 comps with ⟨ob, sb, comps2⟩
    have := serialize_server_go_length initial o s comps 0
    rw [hgo] at this
    simpa using this
  · rfl

/-- C7 counterexample: an identity whose backend data yields 65 components
completes initialization with `network_behaviours_count = 65` and only an
error log; `awake` still marks it spawned; and `serialize_server` still
produces serialized state for it.  Nothing about the over-limit configuration
halts initialization or serialization. -/
theorem too_many_components_does_not_halt :
    (initialize_network_behaviours ⟨1, 0, 5, false, false, 0, []⟩
        (List.replicate 65
          (some ⟨0, SyncDirection.ServerToClient, SyncMode.Observers, [1], true⟩))
        []).1.network_behaviours_count = 65 ∧
    (initialize_network_behaviours ⟨1, 0, 5, false, false, 0, []⟩
        (List.replicate 65
          (some ⟨0, SyncDirection.ServerToClient, SyncMode.Observers, [1], true⟩))
        []).2 = ["NetworkIdentity has too many components. Max is 64."] ∧
    (NetworkIdentity.awake ⟨1, 0, 5, false, false, 0, []⟩
        (List.replicate 65
          (some ⟨0, SyncDirection.ServerToClient, SyncMode.Observers, [1], true⟩))
        []).1.has_spawned = true ∧
    (serialize_server true
        (initialize_network_behaviours ⟨1, 0, 5, false, false, 0, []⟩
          (List.replicate 65
            (some ⟨0, SyncDirection.ServerToClient, SyncMode.Observers, [1], true⟩))
          []).1.behaviours).1 ≠ [] := by
  decide

/-- C7 amended: configuring more than 64 components is reported at spawn time
by an error log from `validate_components`, but it is not fatal: the identity
keeps every created component, `awake` still completes and marks the object
spawned, and `serialize_server` still processes all of its components. -/
theorem too_many_components_only_logged (id : NetworkIdentity)
    (ca cs : List (Option NetworkBehaviourState))
    (h : 64 < (initialize_network_behaviours id ca cs).1.network_behaviours_count) :
    (initialize_network_behaviours id ca cs).2 =
      ["NetworkIdentity has too many components. Max is 64."] ∧
    (NetworkIdentity.awake id ca cs).1.has_spawned = true ∧
    (∀ initial : Bool,
      (serialize_server initial
        (initialize_network_behaviours id ca cs).1.behaviours).2.2.length =
      (initialize_network_behaviours id ca cs).1.behaviours.length) := by
  refine ⟨?_, ?_, ?_⟩
  · rw [initialize_network_behaviours] at h ⊢
    dsimp only at h ⊢
    rw [validate_components, if_pos h]
  · rw [NetworkIdentity.awake]
  · intro initial
    exact serialize_server_length initial _

/-- Witness for C7 amended at the 65-component configuration. -/
theorem too_many_components_only_logged_witness :
    64 < (initialize_network_behaviours ⟨1, 0, 5, false, false, 0, []⟩
        (List.replicate 65
          (some ⟨0, SyncDirection.ClientToServer, SyncMode.Owner, [], true⟩))
        []).1.network_behaviours_count ∧
    ((initialize_network_behaviours ⟨1, 0, 5, false, false, 0, []⟩
        (List.replicate 65
          (some ⟨0, SyncDirection.ClientToServer, SyncMode.Owner, [], true⟩))
        []).2 = ["NetworkIdentity has too many components. Max is 64."] ∧
    (NetworkIdentity.awake ⟨1, 0, 5, false, false, 0, []⟩
        (List.replicate 65
          (some ⟨0, SyncDirection.ClientToServer, SyncMode.Owner, [], true⟩))
        []).1.has_spawned = true ∧
    (∀ initial : Bool,
      (serialize_server initial
        (initialize_network_behaviours ⟨1, 0, 5, false, false, 0, []⟩
          (List.replicate 65
            (some ⟨0, SyncDirection.ClientToServer, SyncMode.Owner, [], true⟩))
          []).1.behaviours).2.2.length =
      (initialize_network_behaviours ⟨1, 0, 5, false, false, 0, []⟩
        (List.replicate 65
          (some ⟨0, SyncDirection.ClientToServer, SyncMode.Owner, [], true⟩))
        []).1.behaviours.length)) :=
  ⟨by decide, too_many_components_only_logged ⟨1, 0, 5, false, false, 0, []⟩
    (List.replicate 65
      (some ⟨0, SyncDirection.ClientToServer, SyncMode.Owner, [], true⟩))
    [] (by decide)⟩

/-- C8 counterexample: `write_bytes_and_size` on the one-byte blob `[7]`
emits the fixed 4-byte prefix `[2, 0, 0, 0]`, not the 1-byte varint `[2]`
encoding of `1 + 1`; and the empty blob writes two zero bytes, not the
varint `[0]`. -/
theorem blob_prefix_is_not_varint :
    write_bytes_and_size [7] 0 1 = [2, 0, 0, 0, 7] ∧
    write_bytes_and_size [7] 0 1 ≠ compress_var_uint (1 + 1) ++ [7] ∧
    write_bytes_and_size [] 0 0 = [0, 0] ∧
    write_bytes_and_size [] 0 0 ≠ compress_var_uint 0 := by
  decide

/-- C8 amended: a blob appended by the wire codec is prefixed by a fixed
4-byte little-endian `u32` length whose value is `1 + N` for a present blob
of length `N` (both in `write_bytes_and_size` and in the Command/Rpc payload
serialization); an empty slice writes a 2-byte zero instead. -/
theorem blob_prefix_fixed_u32 :
    (∀ (value : List Nat) (offset count : Nat), value ≠ [] → count + 1 < 2 ^ 32 →
      write_bytes_and_size value offset count =
        le_bytes 4 (count + 1) ++ write_bytes value offset count) ∧
    (∀ offset count : Nat, write_bytes_and_size [] offset count = le_bytes 2 0) ∧
    (∀ m : CommandMessage, m.payload.length + 1 < 2 ^ 32 →
      CommandMessage.serialize m =
        write_ushort 39124 ++ write_uint m.net_id ++ write_byte m.component_index ++
          write_ushort m.function_hash ++ le_bytes 4 (m.payload.length + 1) ++
          m.payload) := by
  refine ⟨?_, ?_, ?_⟩
  · intro value offset count hv hc
    rw [write_bytes_and_size, if_neg (by simpa using hv)]
    rw [write_uint]
    congr 1
    congr 1
    omega
  · intro offset count
    rfl
  · intro m hm
    rw [CommandMessage.serialize]
    congr 3
    rw [write_uint]
    congr 1
    omega

/-- Witness for C8 amended: the blob `[7]` with `count = 1` gets the 4-byte
prefix of the value 2. -/
theorem blob_prefix_fixed_u32_witness :
    ([7] : List Nat) ≠ [] ∧ (1 : Nat) + 1 < 2 ^ 32 ∧
    write_bytes_and_size [7] 0 1 = le_bytes 4 (1 + 1) ++ write_bytes [7] 0 1 :=
  ⟨by decide, by decide, blob_prefix_fixed_u32.1 [7] 0 1 (by decide) (by decide)⟩

/-- C9 (code bug): `NetworkConnectionToClient::new` initializes
`remote_timescale` to the creation-time local clock value `ts` - the
initializer copied from `remote_timeline` - not to the nominal playback-speed
multiplier 1.0: a connection created at local time 2.0 starts with
`remote_timescale = 2`. -/
theorem remote_timescale_initialized_to_clock :
    (∀ ts send_interval : Rat,
      (NetworkConnectionToClient.new ts send_interval).remote_timescale = ts) ∧
    (NetworkConnectionToClient.new 2 1).remote_timescale = 2 ∧
    ¬ (NetworkConnectionToClient.new 2 1).remote_timescale = 1 := by
  refine ⟨fun ts send_interval => rfl, by decide, by decide⟩

/-- C10: for every connection and every `net_id` argument,
`remove_owned_object` empties the connection's entire owned-object list: its
retain predicate `net_id != net_id` compares the argument with itself and so
keeps nothing, whatever the list previously held. -/
theorem remove_owned_object_empties_owned (conn : NetworkConnectionToClient)
    (net_id : Nat) :
    (remove_owned_object conn net_id).owned = [] := by
  simp [remove_owned_object]

end Mirror
